import Mathlib

/-!
Shallow embedding of `Src/flash.c` (flash-access layer of an STM32 bootloader).

The vendor HAL is modelled as an oracle passed to each operation: erase takes a
function from erase-init records to HAL statuses, write takes the double-word
program primitive and a read-back memory, and the jump takes a 32-bit memory.
Each operation returns the status the C function returns together with the
trace of hardware actions it performed, in order.
-/

/-- HAL status codes, from the vendor HAL (`HAL_StatusTypeDef`). -/
inductive HAL_StatusTypeDef where
  | HAL_OK
  | HAL_ERROR
  | HAL_BUSY
  | HAL_TIMEOUT
deriving DecidableEq, Repr

open HAL_StatusTypeDef

/-- Constant from `Src/flash.c` line 12: start of the flash region. -/
def FLASH_START_ADRESS : Nat := 0x08000000

/-- Constant from `Src/flash.c` line 13: pages per bank. -/
def FLASH_PAGE_NBPERBANK : Nat := 256

/-- Constant from `Src/flash.c` line 16: end of the user application region. -/
def USER_FLASH_END_ADDRESS : Nat := 0x08080000

/-- Modelled from the spec: `FLASH_SIZE` comes from the vendor device headers,
which are not among the repository sources. The spec fixes the flash as two
equal banks of `FLASH_PAGE_NBPERBANK = 256` pages (512 pages total, the page
count obtained for a start address at the flash base), which for the 2-KiB
pages of this part gives a total size of 0x100000 bytes. -/
def FLASH_SIZE : Nat := 0x100000

/-- Modelled from the spec: `FLASH_PAGE_SIZE` comes from the vendor device
headers, which are not among the repository sources; two banks of 256 pages
over 0x100000 bytes give a page size of 0x800 bytes. -/
def FLASH_PAGE_SIZE : Nat := 0x800

/-- Modelled from the spec: `FLASH_APP_START_ADDRESS` (the fixed application
base address) is declared in `flash.h`, which is not among the repository
sources. The claims do not depend on its numeric value. -/
def FLASH_APP_START_ADDRESS : Nat := 0x08008000

/-- HAL constant selecting bank 1 in an erase-init record. -/
def FLASH_BANK_1 : Nat := 1

/-- HAL constant selecting bank 2 in an erase-init record. -/
def FLASH_BANK_2 : Nat := 2

/-- Modelled from the spec: the status enum `flash_status` is declared in
`flash.h`, which is not among the repository sources. The spec only requires
success, generic erase error, hardware write error and read-back mismatch to
be distinct statuses; the `|=` accumulation in `flash_write` implies bit-flag
values with success as zero. -/
def FLASH_OK : Nat := 0x00

/-- Generic error status returned by `flash_erase` (see `FLASH_OK`). -/
def FLASH_ERROR : Nat := 0xFF

/-- Hardware-rejected-write status of `flash_write` (see `FLASH_OK`). -/
def FLASH_ERROR_WRITE : Nat := 0x04

/-- Read-back-mismatch status of `flash_write` (see `FLASH_OK`). -/
def FLASH_ERROR_READBACK : Nat := 0x02

/-- The fields of `FLASH_EraseInitTypeDef` that `flash_erase` fills in
(`TypeErase` is always `FLASH_TYPEERASE_PAGES` and is omitted). -/
structure FLASH_EraseInitTypeDef where
  Banks : Nat
  Page : Nat
  NbPages : Nat
deriving DecidableEq, Repr

/-- One hardware action performed by the driver, in trace order. -/
inductive FlashAction where
  | unlock
  | lock
  | clearFlags
  | eraseCall (e : FLASH_EraseInitTypeDef)
  | progCall (addr : Nat) (val : Nat)
deriving DecidableEq, Repr

/-- The erase-init records of the HAL erase calls in a trace, in order. -/
def eraseCalls (tr : List FlashAction) : List FLASH_EraseInitTypeDef :=
  tr.filterMap fun a =>
    match a with
    | .eraseCall e => some e
    | _ => none

/-- The (address, double-word) pairs of the HAL program calls in a trace. -/
def progCalls (tr : List FlashAction) : List (Nat × Nat) :=
  tr.filterMap fun a =>
    match a with
    | .progCall addr v => some (addr, v)
    | _ => none

/-- Effect of one action on the flash-controller lock state. -/
def lockStep (s : Bool) (a : FlashAction) : Bool :=
  match a with
  | .unlock => false
  | .lock => true
  | _ => s

/-- Lock state of the flash controller after a trace, from lock state `init`. -/
def lockedAfter (init : Bool) (tr : List FlashAction) : Bool :=
  tr.foldl lockStep init

/-- Embedding of `FLASH_Init` (`Src/flash.c` lines 26-35): unlock, clear the stale flags,
relock. The result of the clear-flags step (`cfResult`) is ignored by the C
code, which checks nothing. -/
def FLASH_Init (_cfResult : HAL_StatusTypeDef) : List FlashAction :=
  [FlashAction.unlock, FlashAction.clearFlags, FlashAction.lock]

/-- The page count `NbrOfPages` computed by `flash_erase`
(`Src/flash.c` lines 52-53): `(FLASH_START_ADRESS + FLASH_SIZE - address) /
FLASH_PAGE_SIZE` in `uint32_t` arithmetic. -/
def erasePages (address : Nat) : Nat :=
  ((FLASH_START_ADRESS + FLASH_SIZE + 2 ^ 32 - address) % 2 ^ 32) / FLASH_PAGE_SIZE

/-- Embedding of `flash_erase` (`Src/flash.c` lines 42-86). `hal` is the
`HAL_FLASHEx_Erase` oracle. Returns the `flash_status` result and the trace of
hardware actions. The C code starts with `hal_status = HAL_OK`, performs the
bank-1 erase only when the page count exceeds one bank's capacity (capping the
count at the capacity afterwards), then performs the bank-2 erase only when
`hal_status` is still `HAL_OK`, and finally relocks. -/
def flash_erase (hal : FLASH_EraseInitTypeDef → HAL_StatusTypeDef)
    (address : Nat) : Nat × List FlashAction :=
  let NbrOfPages := erasePages address
  if NbrOfPages > FLASH_PAGE_NBPERBANK then
    let e1 : FLASH_EraseInitTypeDef :=
      { Banks := FLASH_BANK_1
        NbPages := NbrOfPages % FLASH_PAGE_NBPERBANK
        Page := FLASH_PAGE_NBPERBANK - NbrOfPages % FLASH_PAGE_NBPERBANK }
    if hal e1 = HAL_OK then
      let e2 : FLASH_EraseInitTypeDef :=
        { Banks := FLASH_BANK_2
          NbPages := FLASH_PAGE_NBPERBANK
          Page := FLASH_PAGE_NBPERBANK - FLASH_PAGE_NBPERBANK }
      ((if hal e2 = HAL_OK then FLASH_OK else FLASH_ERROR),
       [FlashAction.unlock, FlashAction.eraseCall e1, FlashAction.eraseCall e2,
        FlashAction.lock])
    else
      (FLASH_ERROR, [FlashAction.unlock, FlashAction.eraseCall e1, FlashAction.lock])
  else
    let e2 : FLASH_EraseInitTypeDef :=
      { Banks := FLASH_BANK_2
        NbPages := NbrOfPages
        Page := FLASH_PAGE_NBPERBANK - NbrOfPages }
    ((if hal e2 = HAL_OK then FLASH_OK else FLASH_ERROR),
     [FlashAction.unlock, FlashAction.eraseCall e2, FlashAction.lock])

/-- The erase-init record of the bank-1 call `flash_erase` builds when the
page count exceeds one bank's capacity (`Src/flash.c` lines 59-61). -/
def bank1EraseInit (address : Nat) : FLASH_EraseInitTypeDef :=
  { Banks := FLASH_BANK_1
    NbPages := erasePages address % FLASH_PAGE_NBPERBANK
    Page := FLASH_PAGE_NBPERBANK - erasePages address % FLASH_PAGE_NBPERBANK }

/-- C1: when the computed page count is at most one bank's capacity,
`flash_erase` skips the bank-1 erase and issues exactly one HAL erase call, on
bank 2, with the computed count, at page `256 - count`. -/
theorem flash_erase_small_range_single_bank2_call
    (hal : FLASH_EraseInitTypeDef → HAL_StatusTypeDef) (address : Nat)
    (h : erasePages address ≤ FLASH_PAGE_NBPERBANK) :
    eraseCalls (flash_erase hal address).2 =
      [{ Banks := FLASH_BANK_2
         NbPages := erasePages address
         Page := FLASH_PAGE_NBPERBANK - erasePages address }] := by
  have hnot : ¬ erasePages address > FLASH_PAGE_NBPERBANK := not_lt.mpr h
  simp only [flash_erase, hnot, if_false]
  simp [eraseCalls]

/-- HAL erase oracle that always succeeds (a healthy flash controller). -/
def halOK : FLASH_EraseInitTypeDef → HAL_StatusTypeDef := fun _ => HAL_OK

/-- HAL erase oracle that rejects every bank-1 erase and accepts the rest. -/
def halFailBank1 : FLASH_EraseInitTypeDef → HAL_StatusTypeDef := fun e =>
  if e.Banks = FLASH_BANK_1 then HAL_ERROR else HAL_OK

/-- Witness for C1 at a start address inside bank 1 whose page count is
exactly one bank's capacity. -/
theorem flash_erase_small_range_single_bank2_call_witness :
    erasePages 0x0807F804 ≤ FLASH_PAGE_NBPERBANK ∧
    0x0807F804 < FLASH_START_ADRESS + FLASH_SIZE / FLASH_BANK_2 ∧
    eraseCalls (flash_erase halOK 0x0807F804).2 =
      [{ Banks := FLASH_BANK_2
         NbPages := erasePages 0x0807F804
         Page := FLASH_PAGE_NBPERBANK - erasePages 0x0807F804 }] :=
  ⟨by decide, by decide,
   flash_erase_small_range_single_bank2_call halOK 0x0807F804 (by decide)⟩

/-- C2: when the computed page count exceeds one bank's capacity, and the
bank-1 erase call succeeds, `flash_erase` issues the bank-1 erase of
`count % 256` pages at page `256 - count % 256` first and then the bank-2
erase of 256 pages at page 0. -/
theorem flash_erase_large_range_two_calls
    (hal : FLASH_EraseInitTypeDef → HAL_StatusTypeDef) (address : Nat)
    (h : erasePages address > FLASH_PAGE_NBPERBANK)
    (hok : hal (bank1EraseInit address) = HAL_OK) :
    eraseCalls (flash_erase hal address).2 =
      [bank1EraseInit address,
       { Banks := FLASH_BANK_2
         NbPages := FLASH_PAGE_NBPERBANK
         Page := 0 }] := by
  simp only [flash_erase, h, if_true]
  have he : bank1EraseInit address =
      { Banks := FLASH_BANK_1
        NbPages := erasePages address % FLASH_PAGE_NBPERBANK
        Page := FLASH_PAGE_NBPERBANK - erasePages address % FLASH_PAGE_NBPERBANK } := rfl
  rw [← he, if_pos hok]
  simp [eraseCalls, he]

/-- Witness for C2 at a bank-1 start address giving 511 pages. -/
theorem flash_erase_large_range_two_calls_witness :
    erasePages 0x08000800 > FLASH_PAGE_NBPERBANK ∧
    halOK (bank1EraseInit 0x08000800) = HAL_OK ∧
    eraseCalls (flash_erase halOK 0x08000800).2 =
      [bank1EraseInit 0x08000800,
       { Banks := FLASH_BANK_2
         NbPages := FLASH_PAGE_NBPERBANK
         Page := 0 }] :=
  ⟨by decide, by decide,
   flash_erase_large_range_two_calls halOK 0x08000800 (by decide) (by decide)⟩

/-- C3: `flash_erase` returns `FLASH_OK` exactly when every HAL erase call it
made succeeded, and when the bank-1 erase call fails the bank-2 erase is not
attempted and the result is `FLASH_ERROR`. -/
theorem flash_erase_status_iff_and_abort
    (hal : FLASH_EraseInitTypeDef → HAL_StatusTypeDef) (address : Nat) :
    ((flash_erase hal address).1 = FLASH_OK ↔
       ∀ e ∈ eraseCalls (flash_erase hal address).2, hal e = HAL_OK) ∧
    (erasePages address > FLASH_PAGE_NBPERBANK →
       hal (bank1EraseInit address) ≠ HAL_OK →
       eraseCalls (flash_erase hal address).2 = [bank1EraseInit address] ∧
       (flash_erase hal address).1 = FLASH_ERROR) := by
  by_cases h1 : erasePages address > FLASH_PAGE_NBPERBANK
  · by_cases h2 : hal { Banks := FLASH_BANK_1, Page := FLASH_PAGE_NBPERBANK - erasePages address % FLASH_PAGE_NBPERBANK, NbPages := erasePages address % FLASH_PAGE_NBPERBANK } = HAL_OK
    · by_cases h3 : hal { Banks := FLASH_BANK_2, Page := FLASH_PAGE_NBPERBANK - FLASH_PAGE_NBPERBANK, NbPages := FLASH_PAGE_NBPERBANK } = HAL_OK
      · simp [flash_erase, bank1EraseInit, h1, h2, h3, eraseCalls, FLASH_OK, FLASH_ERROR]
      · simp [flash_erase, bank1EraseInit, h1, h2, h3, eraseCalls, FLASH_OK, FLASH_ERROR]
    · simp [flash_erase, bank1EraseInit, h1, h2, eraseCalls, FLASH_OK, FLASH_ERROR]
  · by_cases h3 : hal { Banks := FLASH_BANK_2, Page := FLASH_PAGE_NBPERBANK - erasePages address, NbPages := erasePages address } = HAL_OK
    · simp [flash_erase, bank1EraseInit, h1, h3, eraseCalls, FLASH_OK, FLASH_ERROR]
    · simp [flash_erase, bank1EraseInit, h1, h3, eraseCalls, FLASH_OK, FLASH_ERROR]

/-- Witness for C3 with an oracle that rejects bank-1 erases, at a start
address spanning both banks. -/
theorem flash_erase_status_iff_and_abort_witness :
    eraseCalls (flash_erase halFailBank1 0x08001000).2 =
      [bank1EraseInit 0x08001000] ∧
    (flash_erase halFailBank1 0x08001000).1 = FLASH_ERROR :=
  (flash_erase_status_iff_and_abort halFailBank1 0x08001000).2
    (by decide) (by decide)

/-- C9: when the computed page count is a multiple of the bank capacity
exceeding it (512 pages starting from the flash base), the bank-1 erase call
requests 0 pages at page 256, so no bank-1 page is requested even though the
range covers all of bank 1. -/
theorem flash_erase_full_multiple_requests_zero_bank1_pages
    (hal : FLASH_EraseInitTypeDef → HAL_StatusTypeDef) (address : Nat)
    (h1 : erasePages address > FLASH_PAGE_NBPERBANK)
    (h2 : erasePages address % FLASH_PAGE_NBPERBANK = 0) :
    erasePages FLASH_START_ADRESS = 2 * FLASH_PAGE_NBPERBANK ∧
    ∃ rest, eraseCalls (flash_erase hal address).2 =
      { Banks := FLASH_BANK_1
        NbPages := 0
        Page := FLASH_PAGE_NBPERBANK } :: rest := by
  refine ⟨by decide, ?_⟩
  by_cases h3 : hal { Banks := FLASH_BANK_1, Page := FLASH_PAGE_NBPERBANK, NbPages := 0 } = HAL_OK
  · refine ⟨[{ Banks := FLASH_BANK_2, Page := FLASH_PAGE_NBPERBANK - FLASH_PAGE_NBPERBANK, NbPages := FLASH_PAGE_NBPERBANK }], ?_⟩
    simp [flash_erase, h1, h2, h3, eraseCalls]
  · refine ⟨[], ?_⟩
    simp [flash_erase, h1, h2, h3, eraseCalls]

/-- Witness for C9 with the start address at the flash base (512 pages). -/
theorem flash_erase_full_multiple_requests_zero_bank1_pages_witness :
    erasePages FLASH_START_ADRESS > FLASH_PAGE_NBPERBANK ∧
    erasePages FLASH_START_ADRESS % FLASH_PAGE_NBPERBANK = 0 ∧
    (∃ rest, eraseCalls (flash_erase halOK FLASH_START_ADRESS).2 =
      { Banks := FLASH_BANK_1
        NbPages := 0
        Page := FLASH_PAGE_NBPERBANK } :: rest) :=
  ⟨by decide, by decide,
   (flash_erase_full_multiple_requests_zero_bank1_pages halOK FLASH_START_ADRESS
     (by decide) (by decide)).2⟩

/-- The 64-bit double-word the write loop takes from the source buffer at
iteration `i`: `*((uint64_t *)(data + 2*i))` (`Src/flash.c` lines 107, 110),
i.e. the words `data[2*i]` (low half) and `data[2*i+1]` (high half). -/
def dataDW (data : Nat → Nat) (i : Nat) : Nat :=
  data (2 * i) % 2 ^ 32 + 2 ^ 32 * (data (2 * i + 1) % 2 ^ 32)

/-- The `for` loop of `flash_write` (`Src/flash.c` lines 103-125). `prog` is
the `HAL_FLASH_Program` oracle (destination address and double-word value to
status) and `read64` is the 64-bit read-back of flash contents after a
successful program call. `n` is the number of loop iterations remaining
(`length/2 - i`), `i` the current iteration index. Returns the final
`status` and the trace of program calls, in order. -/
def flash_write_go (prog : Nat → Nat → HAL_StatusTypeDef) (read64 : Nat → Nat)
    (data : Nat → Nat) : Nat → Nat → Nat → Nat × List FlashAction
  | _, _, 0 => (FLASH_OK, [])
  | address, i, n + 1 =>
    if address ≤ USER_FLASH_END_ADDRESS - 8 then
      if prog address (dataDW data i) = HAL_OK then
        if read64 address ≠ dataDW data i then
          (FLASH_OK ||| FLASH_ERROR_READBACK,
           [FlashAction.progCall address (dataDW data i)])
        else
          let r := flash_write_go prog read64 data (address + 8) (i + 1) n
          (r.1, FlashAction.progCall address (dataDW data i) :: r.2)
      else
        (FLASH_OK ||| FLASH_ERROR_WRITE,
         [FlashAction.progCall address (dataDW data i)])
    else
      (FLASH_OK, [])

/-- Embedding of `flash_write` (`Src/flash.c` lines 95-133): unlock, run the double-word
programming loop over `length/2` double-words, relock, and return the
accumulated status. -/
def flash_write (prog : Nat → Nat → HAL_StatusTypeDef) (read64 : Nat → Nat)
    (address : Nat) (data : Nat → Nat) (length : Nat) : Nat × List FlashAction :=
  let r := flash_write_go prog read64 data address 0 (length / 2)
  (r.1, FlashAction.unlock :: r.2 ++ [FlashAction.lock])

/-- One step of `flash_jump_to_app`, in trace order. -/
inductive JumpAction where
  | deinit
  | setMSP (sp : Nat)
  | jumpTo (entry : Nat)
deriving DecidableEq, Repr

/-- Embedding of `flash_jump_to_app` (`Src/flash.c` lines 140-149): read the entry address
from `FLASH_APP_START_ADDRESS + 4` and the initial stack pointer from
`FLASH_APP_START_ADDRESS` (32-bit volatile reads from `mem`), deinitialize
the HAL, set the main stack pointer, and transfer control to the entry
address, which ends the trace (the call never returns). -/
def flash_jump_to_app (mem : Nat → Nat) : List JumpAction :=
  [JumpAction.deinit,
   JumpAction.setMSP (mem FLASH_APP_START_ADDRESS % 2 ^ 32),
   JumpAction.jumpTo (mem (FLASH_APP_START_ADDRESS + 4) % 2 ^ 32)]

/-- C7: `flash_write` with `length = 0` issues no program call and returns
`FLASH_OK`. -/
theorem flash_write_zero_length (prog : Nat → Nat → HAL_StatusTypeDef)
    (read64 : Nat → Nat) (address : Nat) (data : Nat → Nat) :
    (flash_write prog read64 address data 0).1 = FLASH_OK ∧
    progCalls (flash_write prog read64 address data 0).2 = [] := by
  simp [flash_write, flash_write_go, progCalls]

/-- C6: `FLASH_Init`, `flash_erase` and `flash_write` each leave the flash
controller locked on return, from any prior lock state, on every path — for
any HAL outcomes and regardless of the result of the clear-flags step. -/
theorem flash_driver_locked_on_return
    (cf : HAL_StatusTypeDef) (hal : FLASH_EraseInitTypeDef → HAL_StatusTypeDef)
    (prog : Nat → Nat → HAL_StatusTypeDef) (read64 : Nat → Nat)
    (eAddr wAddr len : Nat) (data : Nat → Nat) (b1 b2 b3 : Bool) :
    lockedAfter b1 (FLASH_Init cf) = true ∧
    lockedAfter b2 (flash_erase hal eAddr).2 = true ∧
    lockedAfter b3 (flash_write prog read64 wAddr data len).2 = true := by
  refine ⟨rfl, ?_, ?_⟩
  · simp only [flash_erase]
    split_ifs <;> rfl
  · simp [flash_write, lockedAfter, List.foldl_append, lockStep]

/-- C8: `flash_jump_to_app` deinitializes the HAL, sets the main stack
pointer to the 32-bit word at the application base address, and finally
transfers control to the 32-bit entry address read from base + 4, with
exactly that (stack pointer, entry) pair; the control transfer is the last
action of the trace. -/
theorem flash_jump_to_app_sequence (mem : Nat → Nat) :
    flash_jump_to_app mem =
      [JumpAction.deinit,
       JumpAction.setMSP (mem FLASH_APP_START_ADDRESS % 2 ^ 32),
       JumpAction.jumpTo (mem (FLASH_APP_START_ADDRESS + 4) % 2 ^ 32)] ∧
    (flash_jump_to_app mem).getLast? =
      some (JumpAction.jumpTo (mem (FLASH_APP_START_ADDRESS + 4) % 2 ^ 32)) := by
  exact ⟨rfl, rfl⟩

/-- Splitting a map over `List.range (k + 1)` into its head and a shifted
map over `List.range k`. -/
theorem range_succ_shift {α : Type} (f : Nat → α) (k : Nat) :
    (List.range (k + 1)).map f = f 0 :: (List.range k).map (fun j => f (j + 1)) := by
  rw [List.range_succ_eq_map]
  simp [List.map_map, Function.comp]

/-- The unlock/lock wrapper of `flash_write` contributes no program call. -/
theorem progCalls_wrap (l : List FlashAction) :
    progCalls (FlashAction.unlock :: l ++ [FlashAction.lock]) = progCalls l := by
  simp [progCalls]

/-- Projecting the program-call pairs out of a trace of program calls. -/
theorem progCalls_map_progCall {α : Type} (l : List α) (A V : α → Nat) :
    progCalls (l.map fun x => FlashAction.progCall (A x) (V x)) =
      l.map fun x => (A x, V x) := by
  induction l with
  | nil => rfl
  | cons a tl ih => simpa [progCalls, List.filterMap_cons] using ih

/-- Every program call issued by the write loop targets an address at most
`USER_FLASH_END_ADDRESS - 8`: the loop condition is re-checked before each
double-word. -/
theorem flash_write_go_calls_bounded (prog : Nat → Nat → HAL_StatusTypeDef)
    (read64 : Nat → Nat) (data : Nat → Nat) :
    ∀ n address i, ∀ p ∈ progCalls (flash_write_go prog read64 data address i n).2,
      p.1 ≤ USER_FLASH_END_ADDRESS - 8 := by
  intro n
  induction n with
  | zero =>
    intro address i p hp
    simp [flash_write_go, progCalls] at hp
  | succ n ih =>
    intro address i p hp
    by_cases ha : address ≤ USER_FLASH_END_ADDRESS - 8
    · by_cases hprog : prog address (dataDW data i) = HAL_OK
      · by_cases hrb : read64 address = dataDW data i
        · simp [flash_write_go, ha, hprog, hrb, progCalls, List.filterMap_cons] at hp
          rcases hp with rfl | hp
          · exact ha
          · exact ih (address + 8) (i + 1) p (by simpa [progCalls] using hp)
        · simp [flash_write_go, ha, hprog, hrb, progCalls] at hp
          rw [hp]
          exact ha
      · simp [flash_write_go, ha, hprog, progCalls] at hp
        rw [hp]
        exact ha
    · simp [flash_write_go, ha, progCalls] at hp

/-- Program oracle that always succeeds. -/
def progOK : Nat → Nat → HAL_StatusTypeDef := fun _ _ => HAL_OK

/-- Program oracle that rejects every double-word program attempt. -/
def progFail : Nat → Nat → HAL_StatusTypeDef := fun _ _ => HAL_ERROR

/-- Read-back memory whose 64-bit reads are all zero. -/
def rmem0 : Nat → Nat := fun _ => 0

/-- Read-back memory whose 64-bit reads are all one. -/
def rmem1 : Nat → Nat := fun _ => 1

/-- Source buffer whose 32-bit words are all zero. -/
def data0 : Nat → Nat := fun _ => 0

/-- C5: `flash_write` never programs a double-word beyond the application
region's last valid double-word slot: every program call it issues targets an
address at most `USER_FLASH_END_ADDRESS - 8`, and when the start address
already exceeds that bound the loop stops at once, issuing no call at all,
even if source data remains. -/
theorem flash_write_no_overrun (prog : Nat → Nat → HAL_StatusTypeDef)
    (read64 : Nat → Nat) (address : Nat) (data : Nat → Nat) (length : Nat) :
    (∀ p ∈ progCalls (flash_write prog read64 address data length).2,
       p.1 ≤ USER_FLASH_END_ADDRESS - 8) ∧
    (USER_FLASH_END_ADDRESS - 8 < address →
       progCalls (flash_write prog read64 address data length).2 = []) := by
  have hw : progCalls (flash_write prog read64 address data length).2 =
      progCalls (flash_write_go prog read64 data address 0 (length / 2)).2 := by
    rw [flash_write]
    exact progCalls_wrap _
  constructor
  · intro p hp
    rw [hw] at hp
    exact flash_write_go_calls_bounded prog read64 data (length / 2) address 0 p hp
  · intro hgt
    rw [hw]
    have ha : ¬ address ≤ USER_FLASH_END_ADDRESS - 8 := by omega
    cases h : length / 2 with
    | zero => simp [flash_write_go, progCalls]
    | succ m => simp [flash_write_go, ha, progCalls]

/-- Witness for C5: a write of two double-words starting exactly at the end
of the application region issues no program call. -/
theorem flash_write_no_overrun_witness :
    USER_FLASH_END_ADDRESS - 8 < 0x08080000 ∧
    progCalls (flash_write progOK rmem0 0x08080000 data0 4).2 = [] :=
  ⟨by decide,
   (flash_write_no_overrun progOK rmem0 0x08080000 data0 4).2 (by decide)⟩

/-- After `k` iterations that all stay inside the address bound, program
successfully, and read back matching data, the write loop has issued exactly
those `k` program calls and continues from address `address + 8 * k` with the
same status outcome. -/
theorem flash_write_go_clean_run (prog : Nat → Nat → HAL_StatusTypeDef)
    (read64 : Nat → Nat) (data : Nat → Nat) :
    ∀ k address i n, k ≤ n →
    (∀ j, j < k → address + 8 * j ≤ USER_FLASH_END_ADDRESS - 8) →
    (∀ j, j < k → prog (address + 8 * j) (dataDW data (i + j)) = HAL_OK) →
    (∀ j, j < k → read64 (address + 8 * j) = dataDW data (i + j)) →
    flash_write_go prog read64 data address i n =
      ((flash_write_go prog read64 data (address + 8 * k) (i + k) (n - k)).1,
       (List.range k).map
         (fun j => FlashAction.progCall (address + 8 * j) (dataDW data (i + j)))
         ++ (flash_write_go prog read64 data (address + 8 * k) (i + k) (n - k)).2) := by
  intro k
  induction k with
  | zero =>
    intro address i n _ _ _ _
    simp
  | succ k ih =>
    intro address i n hkn hb hok hrb
    obtain ⟨m, rfl⟩ : ∃ m, n = m + 1 := ⟨n - 1, by omega⟩
    have ha0 : address ≤ USER_FLASH_END_ADDRESS - 8 := by
      have h := hb 0 (Nat.succ_pos k)
      simpa using h
    have hok0 : prog address (dataDW data i) = HAL_OK := by
      have h := hok 0 (Nat.succ_pos k)
      simpa using h
    have hrb0 : read64 address = dataDW data i := by
      have h := hrb 0 (Nat.succ_pos k)
      simpa using h
    have hstep : flash_write_go prog read64 data address i (m + 1) =
        ((flash_write_go prog read64 data (address + 8) (i + 1) m).1,
         FlashAction.progCall address (dataDW data i) ::
           (flash_write_go prog read64 data (address + 8) (i + 1) m).2) := by
      simp [flash_write_go, ha0, hok0, hrb0]
    have hrec := ih (address + 8) (i + 1) m (by omega)
      (fun j hj => by
        have h := hb (j + 1) (by omega)
        omega)
      (fun j hj => by
        have h := hok (j + 1) (by omega)
        rw [show address + 8 * (j + 1) = address + 8 + 8 * j from by ring,
            show i + (j + 1) = i + 1 + j from by ring] at h
        exact h)
      (fun j hj => by
        have h := hrb (j + 1) (by omega)
        rw [show address + 8 * (j + 1) = address + 8 + 8 * j from by ring,
            show i + (j + 1) = i + 1 + j from by ring] at h
        exact h)
    rw [hstep, hrec]
    rw [show address + 8 + 8 * k = address + 8 * (k + 1) from by ring,
        show i + 1 + k = i + (k + 1) from by ring,
        show m - k = m + 1 - (k + 1) from by omega]
    refine congrArg (fun l => (_, l)) ?_
    have hmap : (List.range k).map
        (fun j => FlashAction.progCall (address + 8 + 8 * j) (dataDW data (i + 1 + j))) =
        (List.range k).map
        (fun j => FlashAction.progCall (address + 8 * (j + 1)) (dataDW data (i + (j + 1)))) := by
      refine List.map_congr_left ?_
      intro a _
      rw [show address + 8 + 8 * a = address + 8 * (a + 1) from by ring,
          show i + 1 + a = i + (a + 1) from by ring]
    rw [range_succ_shift, List.cons_append, hmap]
    simp

/-- Program calls distribute over trace concatenation. -/
theorem progCalls_append (l1 l2 : List FlashAction) :
    progCalls (l1 ++ l2) = progCalls l1 ++ progCalls l2 := by
  simp [progCalls]

/-- C4: if the first `k` double-words program and read back cleanly and the
loop reaches double-word `k`, then a program-primitive failure at `k` makes
`flash_write` return `FLASH_ERROR_WRITE`, and a read-back mismatch at `k`
(after a successful program call) makes it return `FLASH_ERROR_READBACK`; in
both cases exactly double-words `0..k` were attempted and none after `k`. -/
theorem flash_write_aborts_at_first_fault
    (prog : Nat → Nat → HAL_StatusTypeDef) (read64 : Nat → Nat)
    (data : Nat → Nat) (address len k : Nat)
    (hk : k < len / 2)
    (hbound : address + 8 * k ≤ USER_FLASH_END_ADDRESS - 8)
    (hok : ∀ j, j < k → prog (address + 8 * j) (dataDW data j) = HAL_OK)
    (hrb : ∀ j, j < k → read64 (address + 8 * j) = dataDW data j) :
    (prog (address + 8 * k) (dataDW data k) ≠ HAL_OK →
       (flash_write prog read64 address data len).1 = FLASH_ERROR_WRITE ∧
       progCalls (flash_write prog read64 address data len).2 =
         (List.range (k + 1)).map (fun j => (address + 8 * j, dataDW data j))) ∧
    (prog (address + 8 * k) (dataDW data k) = HAL_OK →
       read64 (address + 8 * k) ≠ dataDW data k →
       (flash_write prog read64 address data len).1 = FLASH_ERROR_READBACK ∧
       progCalls (flash_write prog read64 address data len).2 =
         (List.range (k + 1)).map (fun j => (address + 8 * j, dataDW data j))) := by
  have hb : ∀ j, j < k → address + 8 * j ≤ USER_FLASH_END_ADDRESS - 8 := by
    intro j hj
    omega
  have hrun := flash_write_go_clean_run prog read64 data k address 0 (len / 2)
      (le_of_lt hk) hb
      (fun j hj => by simpa using hok j hj)
      (fun j hj => by simpa using hrb j hj)
  have hrun1 : (flash_write_go prog read64 data address 0 (len / 2)).1 =
      (flash_write_go prog read64 data (address + 8 * k) (0 + k) (len / 2 - k)).1 := by
    rw [hrun]
  have hrun2 : (flash_write_go prog read64 data address 0 (len / 2)).2 =
      (List.range k).map
        (fun j => FlashAction.progCall (address + 8 * j) (dataDW data (0 + j)))
        ++ (flash_write_go prog read64 data (address + 8 * k) (0 + k) (len / 2 - k)).2 := by
    rw [hrun]
  obtain ⟨m, hm⟩ : ∃ m, len / 2 - k = m + 1 := ⟨len / 2 - k - 1, by omega⟩
  have hpc : progCalls (flash_write prog read64 address data len).2 =
      progCalls (flash_write_go prog read64 data address 0 (len / 2)).2 := by
    rw [flash_write]
    exact progCalls_wrap _
  have hst : (flash_write prog read64 address data len).1 =
      (flash_write_go prog read64 data address 0 (len / 2)).1 := rfl
  constructor
  · intro hfail
    have hstep : flash_write_go prog read64 data (address + 8 * k) (0 + k) (len / 2 - k) =
        (FLASH_OK ||| FLASH_ERROR_WRITE,
         [FlashAction.progCall (address + 8 * k) (dataDW data k)]) := by
      rw [hm]
      simp [flash_write_go, hbound, hfail]
    constructor
    · rw [hst, hrun1, hstep]
      rfl
    · rw [hpc, hrun2, hstep]
      rw [progCalls_append,
          progCalls_map_progCall (List.range k) (fun j => address + 8 * j)
            (fun j => dataDW data (0 + j)),
          List.range_succ, List.map_append]
      simp [progCalls]
  · intro hokk hmis
    have hstep : flash_write_go prog read64 data (address + 8 * k) (0 + k) (len / 2 - k) =
        (FLASH_OK ||| FLASH_ERROR_READBACK,
         [FlashAction.progCall (address + 8 * k) (dataDW data k)]) := by
      rw [hm]
      simp [flash_write_go, hbound, hokk, hmis]
    constructor
    · rw [hst, hrun1, hstep]
      rfl
    · rw [hpc, hrun2, hstep]
      rw [progCalls_append,
          progCalls_map_progCall (List.range k) (fun j => address + 8 * j)
            (fun j => dataDW data (0 + j)),
          List.range_succ, List.map_append]
      simp [progCalls]

/-- Witness for C4: on a three-double-word write, a program-primitive failure
on the first double-word yields the write-error status with exactly one
attempted double-word, and a read-back mismatch on the first double-word
yields the read-back status with exactly one attempted double-word. -/
theorem flash_write_aborts_at_first_fault_witness :
    ((flash_write progFail rmem0 0x08040000 data0 6).1 = FLASH_ERROR_WRITE ∧
     progCalls (flash_write progFail rmem0 0x08040000 data0 6).2 =
       (List.range 1).map (fun j => (0x08040000 + 8 * j, dataDW data0 j))) ∧
    ((flash_write progOK rmem1 0x08040000 data0 6).1 = FLASH_ERROR_READBACK ∧
     progCalls (flash_write progOK rmem1 0x08040000 data0 6).2 =
       (List.range 1).map (fun j => (0x08040000 + 8 * j, dataDW data0 j))) :=
  ⟨(flash_write_aborts_at_first_fault progFail rmem0 data0 0x08040000 6 0
      (by decide) (by decide)
      (fun j hj => absurd hj (Nat.not_lt_zero j))
      (fun j hj => absurd hj (Nat.not_lt_zero j))).1 (by decide),
   (flash_write_aborts_at_first_fault progOK rmem1 data0 0x08040000 6 0
      (by decide) (by decide)
      (fun j hj => absurd hj (Nat.not_lt_zero j))
      (fun j hj => absurd hj (Nat.not_lt_zero j))).2 (by decide) (by decide)⟩

/-- Number of loop iterations the write loop performs from address `a` with
`n` double-words remaining, when no fault stops it earlier: the loop
re-checks the address bound before every iteration. -/
def slotsFrom : Nat → Nat → Nat
  | _, 0 => 0
  | a, n + 1 =>
    if a ≤ USER_FLASH_END_ADDRESS - 8 then slotsFrom (a + 8) n + 1 else 0

/-- On fault-free hardware (every program call accepted, every read-back
matching) the write loop returns `FLASH_OK` and issues exactly one program
call per iteration performed. -/
theorem flash_write_go_all_ok (prog : Nat → Nat → HAL_StatusTypeDef)
    (read64 : Nat → Nat) (data : Nat → Nat)
    (hprog : ∀ a v, prog a v = HAL_OK) :
    ∀ n address i, (∀ j, read64 (address + 8 * j) = dataDW data (i + j)) →
    (flash_write_go prog read64 data address i n).1 = FLASH_OK ∧
    (flash_write_go prog read64 data address i n).2 =
      (List.range (slotsFrom address n)).map
        (fun j => FlashAction.progCall (address + 8 * j) (dataDW data (i + j))) := by
  intro n
  induction n with
  | zero =>
    intro address i _
    simp [flash_write_go, slotsFrom]
  | succ n ih =>
    intro address i hrb
    by_cases ha : address ≤ USER_FLASH_END_ADDRESS - 8
    · have hrb0 : read64 address = dataDW data i := by simpa using hrb 0
      have hrec := ih (address + 8) (i + 1) (fun j => by
        have h := hrb (j + 1)
        rw [show address + 8 * (j + 1) = address + 8 + 8 * j from by ring,
            show i + (j + 1) = i + 1 + j from by ring] at h
        exact h)
      have hs : slotsFrom address (n + 1) = slotsFrom (address + 8) n + 1 := by
        simp [slotsFrom, ha]
      have hmap : (List.range (slotsFrom (address + 8) n)).map
          (fun j => FlashAction.progCall (address + 8 + 8 * j) (dataDW data (i + 1 + j))) =
          (List.range (slotsFrom (address + 8) n)).map
          (fun j => FlashAction.progCall (address + 8 * (j + 1)) (dataDW data (i + (j + 1)))) := by
        refine List.map_congr_left ?_
        intro a _
        rw [show address + 8 + 8 * a = address + 8 * (a + 1) from by ring,
            show i + 1 + a = i + (a + 1) from by ring]
      constructor
      · simp [flash_write_go, ha, hprog, hrb0, hrec.1]
      · rw [hs, range_succ_shift]
        simp only [flash_write_go, ha, if_true, hprog, hrb0, ne_eq, not_true_eq_false,
          if_false, ite_true]
        simp [hrec.2, hmap]
    · have hs : slotsFrom address (n + 1) = 0 := by simp [slotsFrom, ha]
      constructor
      · simp [flash_write_go, ha]
      · simp [flash_write_go, ha, hs]

/-- C10: when fault-free hardware accepts every issued program call and the
read-back always matches, but the address bound stops the loop before all
`length/2` source double-words are consumed, `flash_write` still returns
`FLASH_OK`: truncation at the application-region bound is not reported as an
error to the caller. -/
theorem flash_write_truncation_returns_ok
    (prog : Nat → Nat → HAL_StatusTypeDef) (read64 : Nat → Nat)
    (data : Nat → Nat) (address len : Nat)
    (hprog : ∀ a v, prog a v = HAL_OK)
    (hrb : ∀ j, read64 (address + 8 * j) = dataDW data j)
    (hstop : slotsFrom address (len / 2) < len / 2) :
    (flash_write prog read64 address data len).1 = FLASH_OK ∧
    (progCalls (flash_write prog read64 address data len).2).length < len / 2 := by
  have h := flash_write_go_all_ok prog read64 data hprog (len / 2) address 0
      (fun j => by simpa using hrb j)
  have hpc : progCalls (flash_write prog read64 address data len).2 =
      progCalls (flash_write_go prog read64 data address 0 (len / 2)).2 := by
    rw [flash_write]
    exact progCalls_wrap _
  refine ⟨h.1, ?_⟩
  rw [hpc, h.2,
      progCalls_map_progCall (List.range (slotsFrom address (len / 2)))
        (fun j => address + 8 * j) (fun j => dataDW data (0 + j))]
  simpa using hstop

/-- Witness for C10: a fault-free write of two double-words starting at the
last valid double-word slot programs one double-word, leaves one source
double-word unwritten, and still returns `FLASH_OK`. -/
theorem flash_write_truncation_returns_ok_witness :
    slotsFrom 0x0807FFF8 (4 / 2) < 4 / 2 ∧
    (flash_write progOK rmem0 0x0807FFF8 data0 4).1 = FLASH_OK ∧
    (progCalls (flash_write progOK rmem0 0x0807FFF8 data0 4).2).length < 4 / 2 :=
  ⟨by decide,
   (flash_write_truncation_returns_ok progOK rmem0 data0 0x0807FFF8 4
      (fun _ _ => rfl) (fun _ => rfl) (by decide)).1,
   (flash_write_truncation_returns_ok progOK rmem0 data0 0x0807FFF8 4
      (fun _ _ => rfl) (fun _ => rfl) (by decide)).2⟩
